import Mathlib

/-!
# Verification of the rolfl/modbus library against its specification

Shallow embedding of the parts of the library that the checked claims are
about: the error taxonomy (errors.go), the server handler table and
diagnostic counters (part_005, serverDiagnostics.go), the server cache
operations (serverCache.go, helpers.go), the server function handlers
(part_000), the TCP MBAP framing (part_010), the CRC-16 (helpers.go) and
the client-side Mask Write Holding decoder (part_001).

Machine integers are modelled as Nat: Go `byte`/`uint16` conversions are
made explicit with `% 256` / `% 65536` at the places the source converts,
and values carried in fields of those types get range hypotheses in the
theorems.  Go slices become `List Nat`; Go `error` results become
`Except`/`Option`; a Go runtime panic is modelled as `Option.none`.
Addresses and counts reaching the server handlers are parsed from the
request by `dataReader.word()` and are therefore in `0..65535`; they are
modelled as `Nat`.
-/

namespace Modbus

/-- Modbus error value: a human message and a wire exception code
(errors.go, type `Error`). -/
structure MError where
  msg : String
  code : Nat
deriving DecidableEq

/-- IllegalFunctionErrorF (errors.go:32) - Modbus error code 1.  The
formatted message text is not load-bearing for any claim and is carried
as a plain string. -/
def IllegalFunctionErrorF (msg : String) : MError := ⟨msg, 1⟩

/-- IllegalAddressErrorF (errors.go:37) - Modbus error code 2. -/
def IllegalAddressErrorF (msg : String) : MError := ⟨msg, 2⟩

/-- IllegalValueErrorF (errors.go:42) - Modbus error code 3. -/
def IllegalValueErrorF (msg : String) : MError := ⟨msg, 3⟩

/-- ServerFailureErrorF (errors.go:47) - Modbus error code 4. -/
def ServerFailureErrorF (msg : String) : MError := ⟨msg, 4⟩

/-- pdu: function byte and raw payload (client.go package doc part, type
`pdu`). -/
structure pdu where
  function : Nat
  data : List Nat
deriving DecidableEq

/-- adu: a pdu plus is-request flag, transaction id and unit id (type
`adu`). -/
structure adu where
  request : Bool
  txid : Nat
  unit : Nat
  pdu : pdu
deriving DecidableEq

/-- Error.asPDU (errors.go:23-29).  The source builds `p := pdu{}` (zero
value, function byte 0), then `p.function |= 0x80` and a one-byte payload
with the code.  The `function` parameter is accepted but never used, as
in the source. -/
def MError.asPDU (err : MError) (function : Nat) : pdu :=
  { function := 0 ||| 0x80, data := [err.code] }

/-- A Go `error` value on the server path: either a modbus `*Error` or a
plain error (e.g. produced by `fmt.Errorf`). -/
inductive GoError where
  | modbusErr (e : MError)
  | plain (msg : String)
deriving DecidableEq

/-- The error branch of modbus.handleServer (client.go:345-353): if the
handler error is not a modbus `*Error` (errors.As fails), it is wrapped
by ServerFailureErrorF, and the reply PDU is `mError.asPDU(function)`. -/
def handleServerErrorPDU (function : Nat) (err : GoError) : pdu :=
  let mError := match err with
    | .modbusErr e => e
    | .plain m => ServerFailureErrorF m
  mError.asPDU function

/-- requestHandlerMeta (part_005:180-185), minus the handler closure. -/
structure requestHandlerMeta where
  function : Nat
  minSize : Nat
  event : Bool
deriving DecidableEq

/-- notEvent (part_005:187-189).  The source method has a VALUE receiver:
it sets `event = false` on a local copy of the meta and returns nothing,
so the entry stored in the `rhandlers` map is left unchanged.  The Lean
embedding returns the modified copy; callers in the source discard it. -/
def requestHandlerMeta.notEvent (rhm : requestHandlerMeta) : requestHandlerMeta :=
  { rhm with event := false }

/-- The rhandlers table as stored by NewServer (part_005:221-250), in
registration order.  addRequestHandler (part_005:257-261) inserts
`{function, minsize, handler, true}` into the map and returns that meta
by value; the `.notEvent()` calls on functions 0x07, 0x2b, 0x11, 0x08,
0x0b, 0x0c, 0x14 and 0x15 act on the returned copy only (value
receiver), so every stored entry has `event = true`. -/
def rhandlers : List requestHandlerMeta :=
  [⟨0x02, 4, true⟩,
   ⟨0x01, 4, true⟩, ⟨0x05, 4, true⟩, ⟨0x0f, 4, true⟩,
   ⟨0x04, 4, true⟩,
   ⟨0x03, 4, true⟩, ⟨0x06, 4, true⟩, ⟨0x10, 4, true⟩,
   ⟨0x16, 6, true⟩, ⟨0x17, 9, true⟩, ⟨0x18, 2, true⟩,
   ⟨0x07, 0, true⟩, ⟨0x2b, 1, true⟩, ⟨0x11, 0, true⟩, ⟨0x08, 2, true⟩,
   ⟨0x0b, 0, true⟩, ⟨0x0c, 0, true⟩,
   ⟨0x14, 1, true⟩, ⟨0x15, 8, true⟩]

/-- Lookup `s.rhandlers[function]` (part_005:305). -/
def rhandlersLookup (f : Nat) : Option requestHandlerMeta :=
  rhandlers.find? (fun m => m.function == f)

/-- server.request for an unregistered function byte (part_005:304-307):
the source returns `fmt.Errorf("Function code 0x%02x not implemented")`,
a plain Go error, not a modbus `*Error`. -/
def serverRequestLookupError (function : Nat) : Option GoError :=
  match rhandlersLookup function with
  | some _ => none
  | none => some (.plain "Function code not implemented")

/-- Server diagnostic counters touched by server.request
(serverDiagnostics.go, type ServerDiagnostics; only the fields the claim
is about). -/
structure ServerDiagCounts where
  Messages : Nat
  EventCounter : Nat
deriving DecidableEq

/-- Effect of server.request (part_005:304-340) on the counters and on
the busy-queue depth, for a registered function byte, where `success`
says whether the handler and the trailing `req.remaining()` check
succeeded.  Per the source: `message()` increments Messages; when the
stored meta has `event = true`, `eventQueued()` runs on entry and the
deferred `eventComplete()` on exit, and BOTH decrement the queue
(serverDiagnostics.go:105-121); `eventCounter()` increments EventCounter
on success. -/
def requestDiagEffect (f : Nat) (success : Bool) (d : ServerDiagCounts) (q : Int) :
    ServerDiagCounts × Int :=
  match rhandlersLookup f with
  | none => (d, q)
  | some h =>
    let d := { d with Messages := d.Messages + 1 }
    let q := if h.event then q - 1 else q
    let d := if h.event && success then { d with EventCounter := d.EventCounter + 1 } else d
    let q := if h.event then q - 1 else q
    (d, q)

/-- getWord (helpers.go:49-51): 16-bit big-endian word at an index of a
byte slice.  `getD` models the in-range slice index. -/
def getWord (data : List Nat) (index : Nat) : Nat :=
  (data.getD index 0) <<< 8 ||| data.getD (index + 1) 0

/-- The typed result of a client Mask Write Holding call (part_001,
X16xMaskWriteHolding). -/
structure X16xMaskWriteHolding where
  Address : Nat
  ANDMask : Nat
  ORMask : Nat
deriving DecidableEq

/-- The client MaskWriteHolding response decoder (part_001:208-240).
After the length-6 check, the reader's three `word()` calls read
big-endian words at cursor offsets 0, 2 and 4 and cannot fail.  The
source's third comparison re-tests `amask != andmask` (already known
false) instead of `omask != ormask`, and on success stores the REQUESTED
address/masks into the result. -/
def maskWriteHoldingDecode (address andmask ormask : Nat) (data : List Nat) :
    Except String X16xMaskWriteHolding :=
  if data.length ≠ 6 then
    .error "Expect Mask Holding Register response to be exactly 6 chars"
  else
    let got := getWord data 0
    if got ≠ address then
      .error "Expect Mask Holding Register response to be for the same address"
    else
      let amask := getWord data 2
      if amask ≠ andmask then
        .error "Expect Mask Holding Register response to be for the same AND mask"
      else
        let _omask := getWord data 4
        if amask ≠ andmask then
          .error "Expect Mask Holding Register response to be for the same OR mask"
        else
          .ok ⟨address, andmask, ormask⟩

/-- One iteration of computeCRC16's inner bit loop (helpers.go:113-120):
if the low bit is set, shift right and XOR the polynomial 0xA001, else
just shift right. -/
def crcBit (crc : Nat) : Nat :=
  if crc &&& 1 = 1 then (crc >>> 1) ^^^ 0xA001 else crc >>> 1

/-- The per-byte body of computeCRC16 (helpers.go:111-121): XOR the byte
into the crc, then run the bit loop 8 times. -/
def crcByte (crc d : Nat) : Nat :=
  crcBit (crcBit (crcBit (crcBit (crcBit (crcBit (crcBit (crcBit (crc ^^^ d))))))))

/-- computeCRC16 (helpers.go:109-123): fold crcByte over the data with
initial value 0xFFFF. -/
def computeCRC16 (data : List Nat) : Nat := data.foldl crcByte 0xFFFF

/-- setWordLE (helpers.go:78-81) applied to the CRC: the little-endian
trailer bytes, `byte(value & 0xFF)` then `byte(value >> 8)`. -/
def crcBytesLE (value : Nat) : List Nat := [value % 256, (value >>> 8) % 256]

/-- buildTCPFrame (part_010:224-236).  The MBAP frame: txid word,
protocol word 0, length word `uint16(1 + payload)` with
`payload = 1 + len(data)`, unit byte, function byte, then the raw
payload.  Word fields are written by setWord as `byte(v >> 8)` then
`byte(v & 0xff)`; unit and function are already bytes in the source and
are stored unconverted. -/
def buildTCPFrame (td : adu) : List Nat :=
  let payload := 1 + td.pdu.data.length
  [(td.txid >>> 8) % 256, td.txid % 256,
   0, 0,
   (((1 + payload) % 65536) >>> 8) % 256, ((1 + payload) % 65536) % 256,
   td.unit, td.pdu.function] ++ td.pdu.data

/-- decodeTCPFrame (part_010:215-222): function byte at index 7, payload
from index 8 on, txid via getWord at 0, unit at index 6.  The is-request
flag of the produced adu is hard-coded to false by the source. -/
def decodeTCPFrame (tdata : List Nat) : adu :=
  { request := false
    txid := getWord tdata 0
    unit := tdata.getD 6 0
    pdu := { function := tdata.getD 7 0, data := tdata.drop 8 } }

/-- serverCheckAddress (helpers.go:126-135): nil when
`address + count ≤ limit`, else an Illegal Data Address error. -/
def serverCheckAddress (name : String) (address count limit : Nat) : Option MError :=
  if address + count ≤ limit then none
  else some (IllegalAddressErrorF (name ++ ": unable to get items"))

/-- server.ReadHoldings core (serverCache.go:172-190): bounds check, then
a copy of `holdings[address : address+count]`. -/
def ReadHoldings (holdings : List Nat) (address count : Nat) :
    Except MError (List Nat) :=
  match serverCheckAddress "Holding" address count holdings.length with
  | some e => .error e
  | none => .ok ((holdings.drop address).take count)

/-- server.WriteHoldings core (serverCache.go:302-316): bounds check,
then `copy(holdings[address:address+count], values)`; the in-place
overwrite of a window whose end is within the slice is the take-append-
drop below. -/
def WriteHoldings (holdings : List Nat) (address : Nat) (values : List Nat) :
    Except MError (List Nat) :=
  match serverCheckAddress "Holding" address values.length holdings.length with
  | some e => .error e
  | none => .ok (holdings.take address ++ values ++ holdings.drop (address + values.length))

/-- server.ReadFileRecords core (serverCache.go:198-228): the only bounds
check is `serverCheckAddress("File", file, 1, len(files))`.  For a valid
file, if `len(f) > address` the count is clamped to the available
records and that window is returned, otherwise the empty list. -/
def ReadFileRecords (files : List (List Nat)) (file address count : Nat) :
    Except MError (List Nat) :=
  match serverCheckAddress "File" file 1 files.length with
  | some e => .error e
  | none =>
    let f := files.getD file []
    if address < f.length then
      let available := f.length - address
      let count := if available < count then available else count
      .ok ((f.drop address).take count)
    else
      .ok []

/-- server.WriteFileRecords core (serverCache.go:324-366): file-index
check, the `address + count ≤ 10000` check, then the new file is built
from `pre`, `pad`, `values` and `post`.  In the source the four copy
calls tile the freshly zeroed slice of length `nlen` exactly (lengths:
`len(pre) + len(pad) = address` in the pad branch and `len(pre) =
address` otherwise, values fill `[address, vlen)`, post fills
`[vlen, nlen)`), so `nfile` is their concatenation. -/
def WriteFileRecords (files : List (List Nat)) (file address : Nat) (values : List Nat) :
    Except MError (List (List Nat)) :=
  let count := values.length
  match serverCheckAddress "File" file 1 files.length with
  | some e => .error e
  | none =>
    match serverCheckAddress "FileRecord" address count 10000 with
    | some e => .error e
    | none =>
      let f := files.getD file []
      let currentLen := f.length
      let pre := if currentLen < address then f else f.take address
      let pad := if currentLen < address then List.replicate (address - currentLen) 0 else []
      let vlen := address + count
      let post := if vlen < currentLen then f.drop vlen else []
      let nfile := pre ++ pad ++ values ++ post
      .ok (files.set file nfile)

/-- dataBuilder.word (codec.go:59-62): append `byte(w >> 8)` then
`byte(w & 0xff)`.  The source first runs `wordPanic(w)`, asserting
`w < 65536`; every use below stays in that range, so the byte casts are
the plain truncations written here. -/
def wordBytes (w : Nat) : List Nat := [(w >>> 8) % 256, w % 256]

/-- dataBuilder.words (codec.go:64-68): each word appended in turn. -/
def wordsBytes (l : List Nat) : List Nat := l.flatMap wordBytes

/-- xHoldingCommonWrite (part_000:25-39): read the current value at the
address, hand it to the user-supplied updateHoldings callback together
with the requested values, then write the replacement the callback
returns.  The callback is a parameter of the embedding. -/
def xHoldingCommonWrite
    (update : Nat → List Nat → List Nat → Except GoError (List Nat))
    (holdings : List Nat) (addr : Nat) (values : List Nat) :
    Except GoError (List Nat) := do
  let current ← (ReadHoldings holdings addr 1).mapError .modbusErr
  let replacement ← update addr values current
  (WriteHoldings holdings addr replacement).mapError .modbusErr

/-- x16MaskWriteHoldingRegister (part_000:84-106), after the three
request words (addr, andMask, orMask) are read.  The source DISCARDS the
error from ReadHoldings and immediately evaluates `value[0]`; when the
read fails the slice is nil and the index panics, modelled as `none`.
Go's `^andMask` complements a wide int, but only its low 16 bits survive
the AND against `orMask` (a word parsed from the request), so for word
inputs it is `65535 ^^^ andMask`.  On success the result is the new
holdings paired with the echoed response payload. -/
def x16MaskWriteHoldingRegister
    (update : Nat → List Nat → List Nat → Except GoError (List Nat))
    (holdings : List Nat) (addr andMask orMask : Nat) :
    Option (Except GoError (List Nat × List Nat)) :=
  match ReadHoldings holdings addr 1 with
  | .error _ => none
  | .ok value =>
    let current := value.getD 0 0
    let result := (current &&& andMask) ||| (orMask &&& (65535 ^^^ andMask))
    some (match xHoldingCommonWrite update holdings addr [result] with
      | .error e => .error e
      | .ok holdings2 =>
        .ok (holdings2, wordBytes addr ++ wordBytes andMask ++ wordBytes orMask))

/-- x18ReadFIFO (part_000:141-164), after the request word (the address)
is read.  The value at the address is the FIFO count; counts above 31
are an Illegal Data Value error; otherwise the next `count` words at
address+1 are read and the response is `count*2+2`, `count`, then the
values, all as big-endian words.  The handler performs no writes, so the
holdings are unchanged by construction. -/
def x18ReadFIFO (holdings : List Nat) (addr : Nat) : Except MError (List Nat) := do
  let values ← ReadHoldings holdings addr 1
  let count := values.getD 0 0
  if count > 31 then
    throw (IllegalValueErrorF "Fifo can have at most 31 values")
  else
    let data ← ReadHoldings holdings (addr + 1) count
    return wordBytes (count * 2 + 2) ++ wordBytes count ++ wordsBytes data

/-! ## Theorems -/

/-- C1: for a protocol error with exception code c and original request
function byte f, the claim wants the server-path exception PDU to carry
function byte `f ||| 0x80` and payload `[c]`.  Evaluating the source's
Error.asPDU at f = 3, c = 2 (an Illegal Data Address error): the payload
is `[2]` as claimed, but the function byte is 0x80, not 3 ||| 0x80 =
0x83, because asPDU ORs 0x80 into the zero-valued fresh pdu and never
reads its `function` argument; handleServer (client.go:351-353) sends
that pdu unchanged. -/
theorem asPDU_drops_function_byte :
    (MError.asPDU ⟨"err", 2⟩ 3).function = 0x80 ∧
    (MError.asPDU ⟨"err", 2⟩ 3).data = [2] ∧
    (3 : Nat) ||| 0x80 = 0x83 ∧ (0x80 : Nat) ≠ 0x83 := by
  refine ⟨rfl, rfl, by decide, by decide⟩

/-- C2: a request with the unregistered function byte 0x99 makes
server.request return a plain (non-modbus) Go error, which
handleServer's `errors.As` cannot convert to `*Error`; it is therefore
wrapped by ServerFailureErrorF, and the exception PDU returned to the
remote client carries code 4 (Server Device Failure), not code 1
(Illegal Function) as the claim states. -/
theorem unknown_function_yields_code4 :
    rhandlersLookup 0x99 = none ∧
    serverRequestLookupError 0x99 = some (.plain "Function code not implemented") ∧
    (handleServerErrorPDU 0x99 (.plain "Function code not implemented")).data = [4] ∧
    (4 : Nat) ≠ 1 := by
  refine ⟨by decide, by decide, rfl, by decide⟩

/-- C9: the client MaskWriteHolding decoder accepts a response whose
echoed OR mask differs from the requested one: with request (address 0,
AND mask 0, OR mask 1) and a 6-byte response echoing address 0, AND mask
0, OR mask 2, the decode succeeds (and even reports the requested OR
mask 1), because the source's OR-mask check re-compares the AND mask.
This refutes the claim that any echoed-field mismatch fails the call. -/
theorem maskWrite_accepts_wrong_ormask :
    maskWriteHoldingDecode 0 0 1 [0, 0, 0, 0, 0, 2] = .ok ⟨0, 0, 1⟩ ∧
    getWord [0, 0, 0, 0, 0, 2] 4 ≠ 1 := by
  refine ⟨rfl, by decide⟩

/-- A doubled value has its low bit clear, so crcBit just shifts it back
down. -/
theorem crcBit_two_mul (y : Nat) : crcBit (2 * y) = y := by
  unfold crcBit
  have h1 : (2 * y) &&& 1 = 0 := by
    rw [Nat.and_one_is_mod]
    omega
  rw [h1]
  simp only [Nat.shiftRight_one]
  simp only [if_neg (by decide : ¬ (0 : Nat) = 1)]
  omega

/-- crcBit steps a multiple of 2^(k+1) down to a multiple of 2^k. -/
theorem crcBit_pow_succ (k x : Nat) : crcBit (2 ^ (k + 1) * x) = 2 ^ k * x := by
  have h : 2 ^ (k + 1) * x = 2 * (2 ^ k * x) := by ring
  rw [h, crcBit_two_mul]

/-- Eight crcBit steps reduce `2^8 * x` to `x`. -/
theorem crcBit_eight_mul_two_pow (x : Nat) :
    crcBit (crcBit (crcBit (crcBit (crcBit (crcBit (crcBit (crcBit (2 ^ 8 * x)))))))) = x := by
  rw [show (8 : Nat) = 7 + 1 from rfl, crcBit_pow_succ 7 x,
    crcBit_pow_succ 6 x, crcBit_pow_succ 5 x, crcBit_pow_succ 4 x, crcBit_pow_succ 3 x,
    crcBit_pow_succ 2 x, crcBit_pow_succ 1 x, crcBit_pow_succ 0 x]
  simp

/-- XORing away the low byte of `2^8 * hi + lo` leaves `2^8 * hi`. -/
theorem add_xor_strip (hi lo : Nat) (h : lo < 2 ^ 8) :
    (2 ^ 8 * hi + lo) ^^^ lo = 2 ^ 8 * hi := by
  apply Nat.eq_of_testBit_eq
  intro j
  rw [Nat.testBit_xor, Nat.testBit_mul_pow_two_add _ h, Nat.testBit_mul_pow_two]
  by_cases hj : j < 8
  · have h8 : ¬ (8 ≤ j) := by omega
    simp [hj, h8]
  · have h8 : 8 ≤ j := by omega
    have hlj : lo < 2 ^ j :=
      lt_of_lt_of_le h (Nat.pow_le_pow_right (by norm_num) h8)
    simp [hj, h8, Nat.testBit_lt_two_pow hlj]

/-- Feeding the crc its own low byte leaves exactly its high byte. -/
theorem crcByte_low_byte (c : Nat) : crcByte c (c % 256) = c / 256 := by
  unfold crcByte
  have h2 : 2 ^ 8 * (c / 256) + c % 256 = c := by
    have e : (2 : Nat) ^ 8 = 256 := by norm_num
    rw [e]
    omega
  have h : c ^^^ c % 256 = 2 ^ 8 * (c / 256) := by
    calc c ^^^ c % 256 = (2 ^ 8 * (c / 256) + c % 256) ^^^ c % 256 := by rw [h2]
      _ = 2 ^ 8 * (c / 256) := add_xor_strip _ _ (by omega)
  rw [h, crcBit_eight_mul_two_pow]

/-- Feeding the crc its own value zeroes it. -/
theorem crcByte_self (x : Nat) : crcByte x x = 0 := by
  unfold crcByte
  rw [Nat.xor_self]
  decide

/-- crcBit keeps values below 2^16. -/
theorem crcBit_lt (c : Nat) (h : c < 65536) : crcBit c < 65536 := by
  have hs : c >>> 1 < 65536 := by
    rw [Nat.shiftRight_one]
    omega
  unfold crcBit
  by_cases hb : c &&& 1 = 1
  · rw [if_pos hb]
    have e : (65536 : Nat) = 2 ^ 16 := by norm_num
    rw [e]
    exact Nat.xor_lt_two_pow (by omega) (by norm_num)
  · rw [if_neg hb]
    exact hs

/-- crcByte keeps values below 2^16 when fed a byte. -/
theorem crcByte_lt (c d : Nat) (hc : c < 65536) (hd : d < 256) :
    crcByte c d < 65536 := by
  have h0 : c ^^^ d < 65536 := by
    have e : (65536 : Nat) = 2 ^ 16 := by norm_num
    rw [e]
    exact Nat.xor_lt_two_pow (by omega) (by omega)
  unfold crcByte
  exact crcBit_lt _ (crcBit_lt _ (crcBit_lt _ (crcBit_lt _ (crcBit_lt _
    (crcBit_lt _ (crcBit_lt _ (crcBit_lt _ h0)))))))

/-- The CRC fold keeps values below 2^16 from any in-range start. -/
theorem foldl_crcByte_lt (d : List Nat) :
    ∀ init, (∀ b ∈ d, b < 256) → init < 65536 →
      List.foldl crcByte init d < 65536 := by
  induction d with
  | nil =>
    intro init _ h
    simpa using h
  | cons b t ih =>
    intro init hb h
    simp only [List.foldl_cons]
    refine ih _ (fun x hx => hb x (List.mem_cons_of_mem _ hx)) ?_
    exact crcByte_lt init b h (hb b (List.mem_cons_self _ _))

/-- computeCRC16 of a byte sequence is a 16-bit value. -/
theorem computeCRC16_lt (d : List Nat) (hd : ∀ b ∈ d, b < 256) :
    computeCRC16 d < 65536 :=
  foldl_crcByte_lt d 0xFFFF hd (by norm_num)

/-- C7: CRC round-trip.  For every byte sequence d, extending d by the
little-endian bytes of its own CRC-16 (polynomial 0xA001, initial
0xFFFF, bytewise XOR then 8 shift steps) and recomputing the CRC yields
0: the low trailer byte reduces the running crc to its high byte, and
the high trailer byte then cancels it entirely. -/
theorem computeCRC16_roundtrip (d : List Nat) (hd : ∀ b ∈ d, b < 256) :
    computeCRC16 (d ++ crcBytesLE (computeCRC16 d)) = 0 := by
  have hlt : computeCRC16 d < 65536 := computeCRC16_lt d hd
  set c := computeCRC16 d with hc
  have hhi : (c >>> 8) % 256 = c / 256 := by
    rw [Nat.shiftRight_eq_div_pow]
    have e : (2 : Nat) ^ 8 = 256 := by norm_num
    rw [e]
    omega
  have hgoal : computeCRC16 (d ++ crcBytesLE c) =
      crcByte (crcByte c (c % 256)) ((c >>> 8) % 256) := by
    rw [hc, computeCRC16, computeCRC16, crcBytesLE, List.foldl_append]
    simp only [List.foldl_cons, List.foldl_nil]
  rw [hgoal, crcByte_low_byte, hhi, crcByte_self]

/-- C7 witness: the round-trip evaluated at the concrete byte sequence
[0x01, 0x02, 0x03]. -/
theorem computeCRC16_roundtrip_witness :
    (∀ b ∈ [0x01, 0x02, 0x03], b < 256) ∧
    computeCRC16 ([0x01, 0x02, 0x03] ++ crcBytesLE (computeCRC16 [0x01, 0x02, 0x03])) = 0 :=
  ⟨by decide, computeCRC16_roundtrip [0x01, 0x02, 0x03] (by decide)⟩

/-- C3: the Mask Write Holding handler panics instead of returning
Illegal Data Address.  With zero provisioned holdings and a mask write
at address 0, serverCheckAddress yields exactly the code-2 error the
claim requires, but x16MaskWriteHoldingRegister discards that error and
indexes the nil slice (modelled `none`, a Go panic) before any Modbus
error can be produced.  The plain cache reads/writes do return the
code-2 error; the claim's universal statement fails on this handler. -/
theorem x16_out_of_range_panics :
    x16MaskWriteHoldingRegister (fun _ v _ => .ok v) [] 0 0xf2f2 0x2525 = none ∧
    ∃ e, serverCheckAddress "Holding" 0 1 0 = some e ∧ e.code = 2 := by
  exact ⟨rfl, ⟨_, rfl, rfl⟩⟩

/-- C4: function 0x07 (Read Exception Status), which the claim lists as
non-event, is stored with `event = true` because notEvent's value
receiver never reaches the map; handling it with success therefore
increments Messages AND EventCounter and changes the busy queue by -2
(eventQueued and eventComplete both decrement), instead of the claimed
Messages-only effect — which would have been `(⟨1, 0⟩, 0)`. -/
theorem x07_treated_as_event :
    (rhandlersLookup 0x07).map requestHandlerMeta.event = some true ∧
    (requestHandlerMeta.mk 0x07 0 true).notEvent.event = false ∧
    requestDiagEffect 0x07 true ⟨0, 0⟩ 0 = (⟨1, 1⟩, -2) ∧
    ((⟨1, 1⟩ : ServerDiagCounts), (-2 : Int)) ≠ ((⟨1, 0⟩ : ServerDiagCounts), (0 : Int)) := by
  refine ⟨by decide, rfl, by decide, by decide⟩

/-- C6 counterexample: decoding the MBAP frame built from a request ADU
does not return the same ADU, because decodeTCPFrame hard-codes the
is-request flag to false. -/
theorem decode_build_flips_request_flag :
    decodeTCPFrame (buildTCPFrame { request := true, txid := 0, unit := 0, pdu := ⟨0, []⟩ }) ≠
      { request := true, txid := 0, unit := 0, pdu := ⟨0, []⟩ } := by
  decide

/-- Recomposing a 16-bit word from the bytes setWord wrote. -/
theorem word_recompose (w : Nat) (h : w < 65536) :
    ((w >>> 8) % 256) <<< 8 ||| w % 256 = w := by
  have hhi : w >>> 8 = w / 256 := by
    rw [Nat.shiftRight_eq_div_pow]
  have hm : (w >>> 8) % 256 = w / 256 := by
    rw [hhi]
    omega
  rw [hm, Nat.shiftLeft_eq]
  have hcomm : (w / 256) * 2 ^ 8 = 2 ^ 8 * (w / 256) := by ring
  rw [hcomm, ← Nat.mul_add_lt_is_or (by omega : w % 256 < 2 ^ 8)]
  have e : (2 : Nat) ^ 8 = 256 := by norm_num
  rw [e]
  omega

/-- C6 amended: for every ADU whose is-request flag is false (the flag
decodeTCPFrame forces), with a 16-bit transaction id and payload of at
most 253 bytes, decoding the built MBAP frame yields the ADU again: the
transaction id, unit id, function byte and payload all round-trip. -/
theorem decodeTCP_buildTCP_roundtrip (a : adu) (hreq : a.request = false)
    (htx : a.txid < 65536) (hlen : a.pdu.data.length ≤ 253) :
    decodeTCPFrame (buildTCPFrame a) = a := by
  obtain ⟨req, txid, unit, fn, data⟩ := a
  simp only at hreq htx hlen
  subst hreq
  simp only [buildTCPFrame, decodeTCPFrame, getWord, List.cons_append, List.nil_append,
    List.getD_cons_zero, List.getD_cons_succ, List.drop_succ_cons, List.drop_zero]
  rw [word_recompose txid htx]

/-- C6 amended witness: a concrete response ADU round-trips. -/
theorem decodeTCP_buildTCP_roundtrip_witness :
    decodeTCPFrame (buildTCPFrame (adu.mk false 0x1234 7 (pdu.mk 0x03 [2, 0xAB, 0xCD]))) =
      adu.mk false 0x1234 7 (pdu.mk 0x03 [2, 0xAB, 0xCD]) :=
  decodeTCP_buildTCP_roundtrip _ rfl (by decide) (by decide)

/-- C10: ReadFileRecords errors exactly when the file index is at or
beyond the provisioned file count (and that error is Illegal Data
Address, code 2); for a valid file index it never errors and returns the
overlap of the window [address, address+count) with the current file
contents, which is empty when the address is at or past the file's
length. -/
theorem ReadFileRecords_spec (files : List (List Nat)) (file address count : Nat) :
    (files.length ≤ file →
      ∃ e, ReadFileRecords files file address count = .error e ∧ e.code = 2) ∧
    (file < files.length →
      ReadFileRecords files file address count =
        .ok (((files.getD file []).drop address).take count)) := by
  constructor
  · intro h
    refine ⟨IllegalAddressErrorF ("File" ++ ": unable to get items"), ?_, rfl⟩
    simp only [ReadFileRecords, serverCheckAddress]
    rw [if_neg (by omega)]
  · intro h
    simp only [ReadFileRecords, serverCheckAddress]
    rw [if_pos (by omega)]
    set f := files.getD file [] with hf
    by_cases ha : address < f.length
    · rw [if_pos ha]
      by_cases hc : f.length - address < count
      · rw [if_pos hc]
        have h1 : (f.drop address).length = f.length - address := List.length_drop _ _
        have h2 : (f.drop address).take (f.length - address) = f.drop address := by
          rw [← h1, List.take_length]
        have h3 : (f.drop address).take count = f.drop address :=
          List.take_of_length_le (by omega)
        rw [h2, h3]
      · rw [if_neg hc]
    · rw [if_neg ha]
      have hd : f.drop address = [] := List.drop_eq_nil_iff.mpr (by omega)
      rw [hd, List.take_nil]

/-- C10 witness: both directions at concrete inputs — a valid file index
returns the clamped window, an out-of-range file index returns the
code-2 error. -/
theorem ReadFileRecords_spec_witness :
    ReadFileRecords [[5, 6, 7]] 0 1 10 = .ok [6, 7] ∧
    ∃ e, ReadFileRecords [[5, 6, 7]] 1 0 1 = .error e ∧ e.code = 2 := by
  constructor
  · exact ((ReadFileRecords_spec [[5, 6, 7]] 0 1 10).2 (by decide)).trans (by rfl)
  · exact (ReadFileRecords_spec [[5, 6, 7]] 1 0 1).1 (by decide)

/-- C8: for a Read FIFO Queue request at address a with holdings[a] = n:
if n > 31 the handler returns the Illegal Data Value error (code 3);
otherwise, when a + 1 + n is within the provisioned holdings, the
response payload is the word n*2+2, the word n, then the n holding
values at addresses a+1 .. a+n.  The handler performs no cache writes
(x18ReadFIFO only reads), so the holdings are unchanged. -/
theorem x18ReadFIFO_correct (holdings : List Nat) (a n : Nat)
    (hv : ∀ v ∈ holdings, v < 65536) (ha : holdings[a]? = some n) :
    (31 < n →
      x18ReadFIFO holdings a = .error (IllegalValueErrorF "Fifo can have at most 31 values")) ∧
    (n ≤ 31 → a + 1 + n ≤ holdings.length →
      x18ReadFIFO holdings a =
        .ok (wordBytes (n * 2 + 2) ++ wordBytes n ++
          wordsBytes ((holdings.drop (a + 1)).take n))) := by
  have hlen : a < holdings.length := (List.getElem?_eq_some.mp ha).1
  have hget : holdings[a] = n := (List.getElem?_eq_some.mp ha).2
  have hread1 : ReadHoldings holdings a 1 = .ok [n] := by
    simp only [ReadHoldings, serverCheckAddress]
    rw [if_pos (by omega)]
    rw [List.drop_eq_getElem_cons hlen]
    simp [hget]
  have hread2 : ∀ m, a + 1 + m ≤ holdings.length →
      ReadHoldings holdings (a + 1) m = .ok ((holdings.drop (a + 1)).take m) := by
    intro m hm
    simp only [ReadHoldings, serverCheckAddress]
    rw [if_pos (by omega)]
  constructor
  · intro h31
    simp only [x18ReadFIFO, hread1, bind, Except.bind, List.getD_cons_zero]
    rw [if_pos h31]
    rfl
  · intro h31 hbound
    simp only [x18ReadFIFO, hread1, bind, Except.bind, List.getD_cons_zero]
    rw [if_neg (by omega), hread2 n hbound]
    rfl

/-- C8 witness: a concrete FIFO read — holdings [2, 100, 200, 300] with
count 2 at address 0 yields size word 6, count word 2, then 100 and
200. -/
theorem x18ReadFIFO_correct_witness :
    x18ReadFIFO [2, 100, 200, 300] 0 =
      .ok (wordBytes 6 ++ wordBytes 2 ++ wordsBytes [100, 200]) := by
  have h := (x18ReadFIFO_correct [2, 100, 200, 300] 0 2 (by decide) (by decide)).2
    (by decide) (by decide)
  exact h.trans (by rfl)

/-- C5: writing values v into file f at record address a (f within the
provisioned file count, a + len(v) within the 10000 cap) produces, in
place of the old file, a new file of length max(old length, a + len(v));
existing records below a keep their values, a gap [old length, a) is
zero-filled, positions [a, a + len(v)) hold v, and positions at or
beyond a + len(v) agree with the old file (previous values where the old
file reached, absent otherwise). -/
theorem WriteFileRecords_growth (files : List (List Nat)) (file address : Nat)
    (values : List Nat) (hf : file < files.length)
    (h10k : address + values.length ≤ 10000) :
    ∃ nfile, WriteFileRecords files file address values = .ok (files.set file nfile) ∧
      nfile.length = max (files.getD file []).length (address + values.length) ∧
      (∀ i, i < address → i < (files.getD file []).length →
        nfile[i]? = (files.getD file [])[i]?) ∧
      (∀ i, (files.getD file []).length ≤ i → i < address → nfile[i]? = some 0) ∧
      (∀ i, i < values.length → nfile[address + i]? = values[i]?) ∧
      (∀ i, address + values.length ≤ i → nfile[i]? = (files.getD file [])[i]?) := by
  have hok : WriteFileRecords files file address values =
      .ok (files.set file
        ((if (files.getD file []).length < address then files.getD file []
          else (files.getD file []).take address) ++
         (if (files.getD file []).length < address then
            List.replicate (address - (files.getD file []).length) 0 else []) ++
         values ++
         (if address + values.length < (files.getD file []).length then
            (files.getD file []).drop (address + values.length) else []))) := by
    simp only [WriteFileRecords, serverCheckAddress]
    rw [if_pos (by omega), if_pos (by omega)]
  set f := files.getD file [] with hfdef
  set L := f.length with hLdef
  set count := values.length with hcdef
  refine ⟨_, hok, ?_, ?_, ?_, ?_, ?_⟩
  · -- length
    by_cases hcase : L < address
    · have hpost : ¬ (address + count < L) := by omega
      rw [if_pos hcase, if_pos hcase, if_neg hpost]
      simp only [List.length_append, List.length_replicate, List.length_nil]
      omega
    · rw [if_neg hcase, if_neg hcase]
      by_cases hpost : address + count < L
      · rw [if_pos hpost]
        simp only [List.length_append, List.length_take, List.length_drop, List.length_nil]
        omega
      · rw [if_neg hpost]
        simp only [List.length_append, List.length_take, List.length_nil]
        omega
  · -- prefix preserved
    intro i hi hiL
    by_cases hcase : L < address
    · rw [if_pos hcase, if_pos hcase]
      rw [List.getElem?_append_left, List.getElem?_append_left, List.getElem?_append_left]
      all_goals try simp only [List.length_append, List.length_replicate,
          List.length_take, List.length_drop, List.length_nil]
      all_goals omega
    · rw [if_neg hcase, if_neg hcase]
      rw [List.getElem?_append_left, List.getElem?_append_left, List.getElem?_append_left,
        List.getElem?_take_of_lt hi]
      all_goals try simp only [List.length_append, List.length_replicate,
          List.length_take, List.length_drop, List.length_nil]
      all_goals omega
  · -- gap zero-filled
    intro i hLi hi
    have hcase : L < address := by omega
    rw [if_pos hcase, if_pos hcase]
    rw [List.getElem?_append_left, List.getElem?_append_left, List.getElem?_append_right hLi]
    · simp only [List.getElem?_replicate]
      rw [if_pos (by omega)]
    all_goals try simp only [List.length_append, List.length_replicate,
        List.length_take, List.length_drop, List.length_nil]
    all_goals omega
  · -- window holds values
    intro i hi
    by_cases hcase : L < address
    · rw [if_pos hcase, if_pos hcase]
      rw [List.getElem?_append_left, List.getElem?_append_right]
      · have he : address + i - (f ++ List.replicate (address - L) 0).length = i := by
          simp only [List.length_append, List.length_replicate]
          omega
        rw [he]
      all_goals try simp only [List.length_append, List.length_replicate,
          List.length_take, List.length_drop, List.length_nil]
      all_goals omega
    · rw [if_neg hcase, if_neg hcase]
      rw [List.getElem?_append_left, List.getElem?_append_right]
      · have he : address + i - (List.take address f ++ []).length = i := by
          simp only [List.length_append, List.length_take, List.length_nil]
          omega
        rw [he]
      all_goals try simp only [List.length_append, List.length_replicate,
          List.length_take, List.length_drop, List.length_nil]
      all_goals omega
  · -- suffix preserved
    intro i hi
    by_cases hcase : L < address
    · have hpost : ¬ (address + count < L) := by omega
      rw [if_pos hcase, if_pos hcase, if_neg hpost]
      rw [List.getElem?_eq_none, List.getElem?_eq_none]
      all_goals try simp only [List.length_append, List.length_replicate,
          List.length_take, List.length_drop, List.length_nil]
      all_goals omega
    · rw [if_neg hcase, if_neg hcase]
      by_cases hpost : address + count < L
      · rw [if_pos hpost]
        by_cases hiL : i < L
        · rw [List.getElem?_append_right]
          · rw [List.getElem?_drop]
            have he : address + count +
                (i - (List.take address f ++ [] ++ values).length) = i := by
              simp only [List.length_append, List.length_take, List.length_nil]
              omega
            rw [he]
          all_goals try simp only [List.length_append, List.length_replicate,
              List.length_take, List.length_drop, List.length_nil]
          all_goals omega
        · rw [List.getElem?_eq_none, List.getElem?_eq_none]
          all_goals try simp only [List.length_append, List.length_replicate,
              List.length_take, List.length_drop, List.length_nil]
          all_goals omega
      · rw [if_neg hpost]
        rw [List.getElem?_eq_none, List.getElem?_eq_none]
        all_goals try simp only [List.length_append, List.length_replicate,
            List.length_take, List.length_drop, List.length_nil]
        all_goals omega

/-- C5 witness: writing [7, 8] at address 4 of the 2-record file [1, 2]
pre-pads with zeros and grows the file to [1, 2, 0, 0, 7, 8]. -/
theorem WriteFileRecords_growth_witness :
    WriteFileRecords [[1, 2]] 0 4 [7, 8] = .ok [[1, 2, 0, 0, 7, 8]] := by
  obtain ⟨nf, hok, -, -, -, -, -⟩ :=
    WriteFileRecords_growth [[1, 2]] 0 4 [7, 8] (by decide) (by decide)
  rfl

end Modbus
